import Mathlib

/-!
Shallow embedding of the AI-Interview-Coach repository (React/TypeScript
frontend, Express backend, Firestore store, Gemini model client).

External effects (the generative model, the document store, browser local
storage, JSON serialisation) are modelled as explicit parameters: a model
call is a function-typed oracle argument, the per-user document store is a
function from document ids to optional sessions, and fallible primitives
return `Except`.  All scores are embedded as rationals.
-/

namespace AIC

/-- `Question.category` enum from `frontend/src/types.ts`. -/
inductive Category where
  | technical
  | behavioral
  | situational
  | company
deriving DecidableEq, Repr

/-- `Question.difficulty` enum from `frontend/src/types.ts`. -/
inductive Difficulty where
  | easy
  | medium
  | hard
deriving DecidableEq, Repr

/-- `Feedback` record from `frontend/src/types.ts` (per-answer feedback,
also the backend `feedbackSchema` of `geminiService.js`). -/
structure Feedback where
  overall_score : ℚ
  strengths : List String
  areas_for_improvement : List String
  suggested_answer_structure : String
  key_points_missed : List String
deriving DecidableEq, Repr

/-- `Question` record from `frontend/src/types.ts`. -/
structure Question where
  question : String
  category : Category
  difficulty : Difficulty
  expected_answer_duration_minutes : ℚ
  userAnswer : Option String
  feedback : Option Feedback
deriving DecidableEq, Repr

/-- `TranscriptEntry.speaker` tag from `frontend/src/types.ts`. -/
inductive Speaker where
  | user
  | ai
deriving DecidableEq, Repr

/-- `TranscriptEntry` record from `frontend/src/types.ts`. -/
structure TranscriptEntry where
  speaker : Speaker
  text : String
deriving DecidableEq, Repr

/-- `LiveSessionFeedback` record from `frontend/src/types.ts` (the backend
`liveFeedbackSchema` of `geminiService.js`). -/
structure LiveSessionFeedback where
  overall_summary : String
  strengths : List String
  areas_for_improvement : List String
  non_verbal_feedback : List String
deriving DecidableEq, Repr

/-- `InterviewSession.status` from `frontend/src/types.ts`. -/
inductive Status where
  | inProgress
  | completed
deriving DecidableEq, Repr

/-- `InterviewSession.mode` from `frontend/src/types.ts`. -/
inductive Mode where
  | classic
  | live
deriving DecidableEq, Repr

/-- `InterviewSession` from `frontend/src/types.ts`.  `userId` is the extra
field the backend `firestoreService.js` stamps on stored documents; fields
that a concrete JavaScript session object may lack (`questions` is absent on
backend-created live sessions, `transcript` on classic ones) are `Option`s. -/
structure InterviewSession where
  id : String
  userId : Option String
  jobTitle : String
  company : String
  jobDescription : String
  createdAt : String
  status : Status
  mode : Mode
  persona : String
  resumeText : Option String
  questions : Option (List Question)
  currentQuestionIndex : Nat
  averageScore : Option ℚ
  transcript : Option (List TranscriptEntry)
  liveSessionFeedback : Option LiveSessionFeedback
deriving DecidableEq, Repr

/-- A per-user Firestore session collection (`users/{uid}/interview_sessions`),
keyed by document id. -/
def Store : Type := String → Option InterviewSession

/-- Write (full overwrite, as `docRef.set(obj)`) one document of a store. -/
def Store.setDoc (st : Store) (id : String) (s : InterviewSession) : Store :=
  fun k => if k = id then some s else st k

/-- Outcome of a model invocation or of a store primitive: `.ok` or a thrown
error (`Except` models JavaScript exceptions). -/
abbrev ModelCall (α : Type) := Except String α

section GeminiService

/-- The fixed default review returned by `generateLiveSessionReview` in
`backend/geminiService.js` for an empty or absent transcript. -/
def defaultEmptyReview : LiveSessionFeedback :=
  { overall_summary := "The interview session was empty and could not be evaluated."
    strengths := []
    areas_for_improvement := []
    non_verbal_feedback := [] }

/-- `generateLiveSessionReview` from `backend/geminiService.js`.  The hosted
model is the oracle `callModel`; the guard `!transcript || transcript.length
=== 0` short-circuits to `defaultEmptyReview` before any model call. -/
def generateLiveSessionReview
    (callModel : List TranscriptEntry → String → ModelCall LiveSessionFeedback)
    (transcript : Option (List TranscriptEntry)) (jobTitle : String) :
    ModelCall LiveSessionFeedback :=
  match transcript with
  | none => .ok defaultEmptyReview
  | some t =>
    if t.length = 0 then .ok defaultEmptyReview
    else callModel t jobTitle

end GeminiService

section FirestoreService

/-- `importSession` from `backend/firestoreService.js`: spread the submitted
session, overwrite `userId` with the authenticated uid, store it under the
session's own client-generated id, and return the stored object. -/
def importSession (uid : String) (st : Store) (sessionData : InterviewSession) :
    Store × InterviewSession :=
  let sessionToImport := { sessionData with userId := some uid }
  (st.setDoc sessionData.id sessionToImport, sessionToImport)

end FirestoreService

section ApiSurface

/-- HTTP response of an API handler, carrying the status class and either the
returned session or the error message (`backend/index.js`). -/
inductive ApiResponse where
  | okSession (s : InterviewSession)
  | created (s : InterviewSession)
  | badRequest (message : String)
  | notFound (message : String)
  | serverError (message : String)
deriving DecidableEq, Repr

/-- The partial update body accepted by `PUT /sessions/:id` and produced by
the composite handlers; `updateSession` merges it field-by-field
(`docRef.set(updateData, \x7b merge: true \x7d)`).  Absent fields are `none`. -/
structure UpdateData where
  status : Option Status := none
  currentQuestionIndex : Option Nat := none
  questions : Option (List Question) := none
  averageScore : Option ℚ := none
  transcript : Option (List TranscriptEntry) := none
  liveSessionFeedback : Option LiveSessionFeedback := none
deriving DecidableEq, Repr

/-- Firestore merge semantics of `updateSession` in `backend/firestoreService.js`:
every field present in the update body replaces the stored one, every absent
field is kept. -/
def applyUpdate (d : UpdateData) (s : InterviewSession) : InterviewSession :=
  { s with
    status := d.status.getD s.status
    currentQuestionIndex := d.currentQuestionIndex.getD s.currentQuestionIndex
    questions := match d.questions with | some qs => some qs | none => s.questions
    averageScore := match d.averageScore with | some a => some a | none => s.averageScore
    transcript := match d.transcript with | some t => some t | none => s.transcript
    liveSessionFeedback :=
      match d.liveSessionFeedback with | some f => some f | none => s.liveSessionFeedback }

/-- `POST /sessions` with `mode: classic` from `backend/index.js`: the
generated questions are attached, the index starts at 0, the status at
`in-progress`; `createSession` of `firestoreService.js` then stamps the
generated document id and the uid.  `gen` is the (already parsed) output of
the `generateQuestions` model call. -/
def createSessionClassic (gen : List Question) (docId uid : String)
    (jobTitle company jobDescription persona resumeText createdAt : String) :
    InterviewSession :=
  { id := docId
    userId := some uid
    jobTitle := jobTitle
    company := company
    jobDescription := jobDescription
    createdAt := createdAt
    status := .inProgress
    mode := .classic
    persona := persona
    resumeText := some resumeText
    questions := some gen
    currentQuestionIndex := 0
    averageScore := none
    transcript := none
    liveSessionFeedback := none }

/-- `POST /sessions` with `mode: live` from `backend/index.js`: no questions
field is set, `transcript` starts empty. -/
def createSessionLive (docId uid : String)
    (jobTitle company jobDescription persona resumeText createdAt : String) :
    InterviewSession :=
  { id := docId
    userId := some uid
    jobTitle := jobTitle
    company := company
    jobDescription := jobDescription
    createdAt := createdAt
    status := .inProgress
    mode := .live
    persona := persona
    resumeText := some resumeText
    questions := none
    currentQuestionIndex := 0
    averageScore := none
    transcript := some []
    liveSessionFeedback := none }

/-- The body of `POST /sessions/:id/answer` (`questionIndex` is `none` when
the request body lacks a usable index: `session.questions[questionIndex]` is
then `undefined` in JavaScript, exactly as for an out-of-range index). -/
structure AnswerBody where
  questionIndex : Option Nat
  answer : String
deriving DecidableEq, Repr

/-- `POST /sessions/:id/answer` from `backend/index.js`.  `evalOracle` is the
`evaluateAnswer` model call of `geminiService.js`.  A session without a
`questions` array (a live session) makes `session.questions[questionIndex]`
throw in JavaScript; the route's catch block turns that into a 500. -/
def answerHandler
    (evalOracle : String → Category → String → ModelCall Feedback)
    (st : Store) (sid : String) (body : AnswerBody) : ApiResponse × Store :=
  match st sid with
  | none => (.notFound "Session not found.", st)
  | some s =>
    match s.questions with
    | none => (.serverError "Cannot read properties of undefined", st)
    | some qs =>
      match body.questionIndex with
      | none => (.badRequest "Question not found at that index.", st)
      | some idx =>
        match qs[idx]? with
        | none => (.badRequest "Question not found at that index.", st)
        | some q =>
          match evalOracle q.question q.category body.answer with
          | .error e => (.serverError e, st)
          | .ok fb =>
            let updatedQuestions :=
              qs.set idx { q with userAnswer := some body.answer, feedback := some fb }
            let updatedSession := applyUpdate { questions := some updatedQuestions } s
            (.okSession updatedSession, st.setDoc sid updatedSession)

/-- Sum of `overall_score` over the answered questions, then the division of
`POST /sessions/:id/finish`: `answeredQuestions.reduce((sum, q) => sum +
q.feedback.overall_score, 0)` and `totalScore / answeredQuestions.length`
guarded by `answeredQuestions.length > 0`. -/
def computeAverageScore (qs : List Question) : ℚ :=
  let answeredQuestions := qs.filter fun q => q.feedback.isSome
  let totalScore := answeredQuestions.foldl
    (fun sum q => sum + (match q.feedback with | some f => f.overall_score | none => 0)) 0
  if answeredQuestions.length > 0 then totalScore / answeredQuestions.length else 0

/-- `POST /sessions/:id/finish` from `backend/index.js`.  For classic mode
the average score is computed (a classic session whose stored document lacks
`questions` would make `.filter` throw, hence the 500 branch); for live mode
`generateLiveSessionReview` is invoked on the request transcript and the
transcript is persisted alongside the feedback. -/
def finishHandler
    (callModel : List TranscriptEntry → String → ModelCall LiveSessionFeedback)
    (st : Store) (sid : String) (transcript : Option (List TranscriptEntry)) :
    ApiResponse × Store :=
  match st sid with
  | none => (.notFound "Session not found.", st)
  | some s =>
    match s.mode with
    | .classic =>
      match s.questions with
      | none => (.serverError "Cannot read properties of undefined", st)
      | some qs =>
        let finalUpdate : UpdateData :=
          { status := some .completed, averageScore := some (computeAverageScore qs) }
        let finishedSession := applyUpdate finalUpdate s
        (.okSession finishedSession, st.setDoc sid finishedSession)
    | .live =>
      match generateLiveSessionReview callModel transcript s.jobTitle with
      | .error e => (.serverError e, st)
      | .ok fb =>
        let finalUpdate : UpdateData :=
          { status := some .completed, liveSessionFeedback := some fb
            transcript := some (transcript.getD []) }
        let finishedSession := applyUpdate finalUpdate s
        (.okSession finishedSession, st.setDoc sid finishedSession)

/-- `POST /sessions/import` from `backend/index.js`: reject when the body is
absent, its `id` is falsy, or its `status` is not `completed`; otherwise
delegate to `importSession`.  An absent or empty-string `id` is falsy in
JavaScript, so an empty `id` models both. -/
def importHandler (uid : String) (st : Store) (body : Option InterviewSession) :
    ApiResponse × Store :=
  match body with
  | none => (.badRequest "Invalid session data provided for import.", st)
  | some sessionData =>
    if sessionData.id = "" ∨ sessionData.status ≠ .completed then
      (.badRequest "Invalid session data provided for import.", st)
    else
      let (st2, importedSession) := importSession uid st sessionData
      (.created importedSession, st2)

/-- `PUT /sessions/:id` from `backend/index.js`: the client-supplied body is
merged into the stored session unvalidated. -/
def updateHandler (st : Store) (sid : String) (body : UpdateData) :
    ApiResponse × Store :=
  match st sid with
  | none => (.notFound "Session not found.", st)
  | some s =>
    let updatedSession := applyUpdate body s
    (.okSession updatedSession, st.setDoc sid updatedSession)

end ApiSurface

/-- Truthiness test `!text.trim()` used by the client code: a JavaScript
string trims to the empty string exactly when all its characters are
whitespace. -/
def isBlank (s : String) : Bool :=
  s.data.all Char.isWhitespace

section PracticeSessionPage

/-- Length of the session's questions array as the classic practice page
reads it (`session.questions.length`); the page only runs on classic
sessions, whose array is present. -/
def questionCount (s : InterviewSession) : Nat :=
  (s.questions.getD []).length

/-- `navigateQuestion` from the classic practice page: both the
authenticated path (`updateSession(id, \x7b currentQuestionIndex: newIndex \x7d)`)
and the guest path (`saveGuestSession(\x7b ...session, currentQuestionIndex:
newIndex \x7d)`) produce the session with just the index replaced. -/
def navigateQuestion (s : InterviewSession) (newIndex : Nat) : InterviewSession :=
  { s with currentQuestionIndex := newIndex }

/-- `handleNext` from the classic practice page: advance only while
`nextIndex < session.questions.length`. -/
def handleNext (s : InterviewSession) : InterviewSession :=
  let nextIndex := s.currentQuestionIndex + 1
  if nextIndex < questionCount s then navigateQuestion s nextIndex else s

/-- `handlePrev` from the classic practice page: move back one question
whenever `prevIndex >= 0`, i.e. whenever the current index is at least 1. -/
def handlePrev (s : InterviewSession) : InterviewSession :=
  if s.currentQuestionIndex ≥ 1 then
    navigateQuestion s (s.currentQuestionIndex - 1)
  else s

/-- `handleFinish` from the classic practice page, guest path (the
authenticated path delegates to `POST /sessions/:id/finish`, which performs
the identical computation): mark completed and attach the average score. -/
def handleFinish (s : InterviewSession) : InterviewSession :=
  { s with status := .completed
           averageScore := some (computeAverageScore (s.questions.getD [])) }

/-- `handleSubmitAnswer` from the classic practice page.  A blank answer is
rejected up front (state unchanged).  On success the current question gains
the answer and the evaluated feedback (`fb`, the model outcome), then the
page either navigates to the next question or — on the final question —
finishes the session. -/
def handleSubmitAnswer (fb : Feedback) (answer : String) (s : InterviewSession) :
    InterviewSession :=
  if isBlank answer then s
  else
    match s.questions with
    | none => s
    | some qs =>
      match qs[s.currentQuestionIndex]? with
      | none => s
      | some currentQuestion =>
        let updatedQuestions := qs.set s.currentQuestionIndex
          { currentQuestion with userAnswer := some answer, feedback := some fb }
        let s1 := { s with questions := some updatedQuestions }
        if s.currentQuestionIndex < questionCount s - 1 then
          navigateQuestion s1 (s.currentQuestionIndex + 1)
        else
          handleFinish s1

/-- One user interaction on the classic practice page. -/
inductive ClientOp where
  | next
  | prev
  | submit (fb : Feedback) (answer : String)
  | finish
deriving DecidableEq, Repr

/-- Dispatch of one classic practice page interaction. -/
def clientStep (op : ClientOp) (s : InterviewSession) : InterviewSession :=
  match op with
  | .next => handleNext s
  | .prev => handlePrev s
  | .submit fb answer => handleSubmitAnswer fb answer s
  | .finish => handleFinish s

/-- A whole interaction sequence on the classic practice page. -/
def runClient (ops : List ClientOp) (s : InterviewSession) : InterviewSession :=
  ops.foldl (fun t op => clientStep op t) s

end PracticeSessionPage

section LiveSessionPage

/-- One transcription chunk delivered by the streaming `onmessage` callback
of the live session page: an `outputTranscription` carries speaker `ai`, an
`inputTranscription` speaker `user`. -/
def appendChunk (chunkSpeaker : Speaker) (text : String) :
    List TranscriptEntry → List TranscriptEntry
  | [] => if isBlank text = false then [⟨chunkSpeaker, text⟩] else []
  | [lastEntry] =>
    if lastEntry.speaker = chunkSpeaker then
      [{ lastEntry with text := lastEntry.text ++ text }]
    else if isBlank text = false then [lastEntry, ⟨chunkSpeaker, text⟩] else [lastEntry]
  | e :: rest => e :: appendChunk chunkSpeaker text rest

/-- The transcript accumulated by folding the stream of transcription chunks
through `appendChunk`, starting from the page's empty initial transcript. -/
def accumulateTranscript (chunks : List (Speaker × String)) : List TranscriptEntry :=
  chunks.foldl (fun tr c => appendChunk c.1 c.2 tr) []

/-- Adjacent transcript entries carry different speaker tags. -/
def speakersAlternate : List TranscriptEntry → Bool
  | [] => true
  | [_] => true
  | a :: b :: rest => a.speaker ≠ b.speaker && speakersAlternate (b :: rest)

end LiveSessionPage

section LocalStorageService

/-- The browser `localStorage` contents: a partial map from keys to strings. -/
def WebStorage : Type := String → Option String

/-- `GUEST_SESSION_KEY` from `frontend/src/services/localStorageService.ts`. -/
def GUEST_SESSION_KEY : String := "guestInterviewSession"

/-- `saveGuestSession`: `localStorage.setItem` (whose behaviour, including a
possible quota exception, is the oracle `setItem`) inside a try/catch; the
session is returned either way.  `stringify` is `JSON.stringify`. -/
def saveGuestSession
    (setItem : WebStorage → String → String → ModelCall WebStorage)
    (stringify : InterviewSession → String)
    (st : WebStorage) (session : InterviewSession) : WebStorage × InterviewSession :=
  match setItem st GUEST_SESSION_KEY (stringify session) with
  | .ok st2 => (st2, session)
  | .error _ => (st, session)

/-- `getGuestSession`: read the key and parse inside a try/catch; a read
failure, an absent (or falsy empty) value, or a parse failure yields `null`.
`getItem` is the `localStorage.getItem` behaviour, `parse` is `JSON.parse`. -/
def getGuestSession
    (getItem : WebStorage → String → ModelCall (Option String))
    (parse : String → ModelCall InterviewSession)
    (st : WebStorage) : Option InterviewSession :=
  match getItem st GUEST_SESSION_KEY with
  | .error _ => none
  | .ok none => none
  | .ok (some sessionJSON) =>
    if sessionJSON = "" then none
    else
      match parse sessionJSON with
      | .error _ => none
      | .ok s => some s

/-- `clearGuestSession`: `localStorage.removeItem` inside a try/catch; an
error leaves the storage as it was and is swallowed. -/
def clearGuestSession
    (removeItem : WebStorage → String → ModelCall WebStorage)
    (st : WebStorage) : WebStorage :=
  match removeItem st GUEST_SESSION_KEY with
  | .ok st2 => st2
  | .error _ => st

end LocalStorageService

section SessionLifecycle

/-- One API operation applied to an existing stored session (the operations
of `backend/index.js` that can mutate a stored session after creation). -/
inductive BackendOp where
  | update (d : UpdateData)
  | answer (body : AnswerBody)
  | finish (transcript : Option (List TranscriptEntry))

/-- Effect of one backend operation on one stored session: run the
corresponding route handler of `backend/index.js` on a store holding that
session and read the document back (a handler that errors leaves the store
unchanged). -/
def stepBackend
    (evalOracle : String → Category → String → ModelCall Feedback)
    (callModel : List TranscriptEntry → String → ModelCall LiveSessionFeedback)
    (op : BackendOp) (s : InterviewSession) : InterviewSession :=
  let st : Store := fun k => if k = s.id then some s else none
  let st2 :=
    match op with
    | .update d => (updateHandler st s.id d).2
    | .answer body => (answerHandler evalOracle st s.id body).2
    | .finish tr => (finishHandler callModel st s.id tr).2
  (st2 s.id).getD s

/-- A whole sequence of backend operations on one stored session. -/
def runBackend
    (evalOracle : String → Category → String → ModelCall Feedback)
    (callModel : List TranscriptEntry → String → ModelCall LiveSessionFeedback)
    (ops : List BackendOp) (s : InterviewSession) : InterviewSession :=
  ops.foldl (fun t op => stepBackend evalOracle callModel op t) s

/-- Rank of a status in the lifecycle order `in-progress before completed`. -/
def statusRank : Status → Nat
  | .inProgress => 0
  | .completed => 1

/-- An update body that does not write the lifecycle fields (`status`,
`averageScore`, `liveSessionFeedback`); the update the client actually sends
(`\x7b currentQuestionIndex \x7d` from `navigateQuestion`) is of this shape. -/
def RestrictedOp : BackendOp → Prop
  | .update d => d.status = none ∧ d.averageScore = none ∧ d.liveSessionFeedback = none
  | .answer _ => True
  | .finish _ => True

/-- An in-progress session has gained neither completion field yet. -/
def Clean (s : InterviewSession) : Prop :=
  s.status = .inProgress → (s.averageScore = none ∧ s.liveSessionFeedback = none)

end SessionLifecycle

/-- The arithmetic mean named by the spec: the sum of `overall_score` over
the answered questions divided by how many there are (stated with total
rational division, under which the empty mean is 0). -/
def specArithmeticMean (answered : List Question) : ℚ :=
  (answered.map fun q =>
      match q.feedback with | some f => f.overall_score | none => 0).sum
    / answered.length

/-- Index-in-range invariant of a classic session as the spec states it. -/
def InBounds (s : InterviewSession) : Prop :=
  s.currentQuestionIndex < questionCount s

/-! ## Concrete sample data used by counterexamples and witnesses -/

/-- A sample unanswered question. -/
def qEx : Question :=
  { question := "Tell me about yourself."
    category := .behavioral
    difficulty := .easy
    expected_answer_duration_minutes := 2
    userAnswer := none
    feedback := none }

/-- A second sample question. -/
def qEx2 : Question :=
  { question := "Describe a hard bug you fixed."
    category := .technical
    difficulty := .medium
    expected_answer_duration_minutes := 3
    userAnswer := none
    feedback := none }

/-- A sample feedback object with score 7. -/
def fbEx : Feedback :=
  { overall_score := 7
    strengths := ["clear"]
    areas_for_improvement := ["detail"]
    suggested_answer_structure := "STAR"
    key_points_missed := [] }

/-- A sample review object. -/
def reviewEx : LiveSessionFeedback :=
  { overall_summary := "Good session."
    strengths := ["pace"]
    areas_for_improvement := ["eye contact"]
    non_verbal_feedback := ["steady"] }

/-- A concrete evaluation oracle that always succeeds with `fbEx`. -/
def evalOracleEx : String → Category → String → ModelCall Feedback :=
  fun _ _ _ => .ok fbEx

/-- A concrete review oracle that always succeeds with `reviewEx`. -/
def callModelEx : List TranscriptEntry → String → ModelCall LiveSessionFeedback :=
  fun _ _ => .ok reviewEx

/-- A freshly created two-question classic session. -/
def s0c : InterviewSession :=
  createSessionClassic [qEx, qEx2] "doc1" "u1" "Backend Engineer" "Acme" "JD" "HR Screener" "" "t0"

/-- The session after a successful submission of an answer to question 0 of
`s0c` (the practice page advances to question 1). -/
def s1c : InterviewSession :=
  handleSubmitAnswer fbEx "I led the migration." s0c

/-- A concrete completed classic session. -/
def sDoneEx : InterviewSession :=
  { s0c with status := .completed, averageScore := some 7 }

/-- A freshly created live session. -/
def sLiveEx : InterviewSession :=
  createSessionLive "live1" "u1" "Backend Engineer" "Acme" "JD" "HR Screener" "" "t0"

/-- A store holding only the live session `sLiveEx`. -/
def storeEx : Store :=
  fun k => if k = "live1" then some sLiveEx else none

/-- The empty browser storage. -/
def emptyStorage : WebStorage := fun _ => none

/-- A concrete always-failing JSON parse oracle. -/
def parseFailEx : String → ModelCall InterviewSession := fun _ => .error "SyntaxError"

/-- A concrete stringify oracle. -/
def stringifyEx : InterviewSession → String := fun _ => "json"

/-- A concrete storage write that always succeeds. -/
def setItemOkEx : WebStorage → String → String → ModelCall WebStorage :=
  fun st k v => .ok (fun j => if j = k then some v else st j)

/-- A concrete storage primitive that always throws (quota exceeded). -/
def removeItemFailEx : WebStorage → String → ModelCall WebStorage :=
  fun _ _ => .error "QuotaExceededError"

/-- A concrete storage read that always throws. -/
def getItemFailEx : WebStorage → String → ModelCall (Option String) :=
  fun _ _ => .error "SecurityError"

/-- A concrete storage read that finds nothing. -/
def getItemNoneEx : WebStorage → String → ModelCall (Option String) :=
  fun _ _ => .ok none

/-- A concrete storage read that returns a stored string. -/
def getItemSomeEx : WebStorage → String → ModelCall (Option String) :=
  fun _ _ => .ok (some "json")

/-! ## Claims -/

/-- C5: for an empty (or absent) transcript, the live-review operation
returns the fixed default review — whose three lists are empty and whose
summary is the fixed session-was-empty message — and it does so for every
possible model oracle `callModel`, i.e. without invoking the model. -/
theorem claim5_empty_transcript_default_review :
    ∀ (callModel : List TranscriptEntry → String → ModelCall LiveSessionFeedback)
      (transcript : Option (List TranscriptEntry)) (jobTitle : String),
      (transcript = none ∨ transcript = some []) →
      generateLiveSessionReview callModel transcript jobTitle = .ok defaultEmptyReview ∧
      defaultEmptyReview.strengths = [] ∧
      defaultEmptyReview.areas_for_improvement = [] ∧
      defaultEmptyReview.non_verbal_feedback = [] ∧
      defaultEmptyReview.overall_summary =
        "The interview session was empty and could not be evaluated." := by
  intro callModel transcript jobTitle h
  refine ⟨?_, rfl, rfl, rfl, rfl⟩
  rcases h with h | h <;> subst h <;> simp [generateLiveSessionReview]

/-- Witness for C5 at the concrete oracle `callModelEx` and both empty
transcript shapes. -/
theorem claim5_witness :
    generateLiveSessionReview callModelEx none "Backend Engineer" = .ok defaultEmptyReview ∧
    generateLiveSessionReview callModelEx (some []) "Backend Engineer" = .ok defaultEmptyReview :=
  ⟨(claim5_empty_transcript_default_review callModelEx none "Backend Engineer" (.inl rfl)).1,
   (claim5_empty_transcript_default_review callModelEx (some []) "Backend Engineer" (.inr rfl)).1⟩

/-- C6: a guest session accepted by the import endpoint is stored and
returned with its original id, with `userId` overwritten to the
authenticated uid, and with every other field unchanged; documents under
other ids are untouched. -/
theorem claim6_import_preserves_fields :
    ∀ (uid : String) (st : Store) (sessionData r : InterviewSession) (st2 : Store),
      importHandler uid st (some sessionData) = (.created r, st2) →
      r.id = sessionData.id ∧
      r.userId = some uid ∧
      st2 sessionData.id = some r ∧
      r.jobTitle = sessionData.jobTitle ∧
      r.company = sessionData.company ∧
      r.jobDescription = sessionData.jobDescription ∧
      r.createdAt = sessionData.createdAt ∧
      r.status = sessionData.status ∧
      r.mode = sessionData.mode ∧
      r.persona = sessionData.persona ∧
      r.resumeText = sessionData.resumeText ∧
      r.questions = sessionData.questions ∧
      r.currentQuestionIndex = sessionData.currentQuestionIndex ∧
      r.averageScore = sessionData.averageScore ∧
      r.transcript = sessionData.transcript ∧
      r.liveSessionFeedback = sessionData.liveSessionFeedback ∧
      (∀ k, k ≠ sessionData.id → st2 k = st k) := by
  intro uid st sessionData r st2 h
  by_cases hg : sessionData.id = "" ∨ sessionData.status ≠ .completed
  · simp [importHandler, hg] at h
  · simp only [importHandler, if_neg hg, importSession] at h
    obtain ⟨hr, hst⟩ := And.intro (congrArg Prod.fst h) (congrArg Prod.snd h)
    simp only at hr hst
    cases hr
    subst hst
    refine ⟨rfl, rfl, ?_, rfl, rfl, rfl, rfl, rfl, rfl, rfl, rfl, rfl, rfl, rfl, rfl, rfl, ?_⟩
    · simp [Store.setDoc]
    · intro k hk
      simp [Store.setDoc, hk]

/-- Witness for C6: importing a concrete completed guest session. -/
theorem claim6_witness :
    ((importHandler "u2" storeEx
        (some { sLiveEx with id := "guest1", status := .completed })).2) "guest1"
      = some { sLiveEx with id := "guest1", status := .completed, userId := some "u2" } := by
  have h := claim6_import_preserves_fields "u2" storeEx
      { sLiveEx with id := "guest1", status := .completed }
      { sLiveEx with id := "guest1", status := .completed, userId := some "u2" }
      ((importHandler "u2" storeEx
        (some { sLiveEx with id := "guest1", status := .completed })).2)
      (by rfl)
  exact h.2.2.1

theorem foldl_add_score (f : Question → ℚ) (l : List Question) (a : ℚ) :
    l.foldl (fun sum q => sum + f q) a = a + (l.map f).sum := by
  induction l generalizing a with
  | nil => simp
  | cons q t ih => simp [ih, add_assoc]

theorem computeAverageScore_eq_mean (qs : List Question) :
    computeAverageScore qs =
      specArithmeticMean (qs.filter fun q => q.feedback.isSome) := by
  simp only [computeAverageScore, specArithmeticMean]
  rw [foldl_add_score
    (fun q => match q.feedback with | some f => f.overall_score | none => 0)]
  rcases Nat.eq_zero_or_pos (qs.filter fun q => q.feedback.isSome).length with h | h
  · rw [List.length_eq_zero] at h
    simp [h]
  · simp [Nat.pos_iff_ne_zero.mp h, h]

/-- C1: finishing a classic session — through the backend finish route or
the guest-path `handleFinish` of the practice page — stores and returns a
completed session whose `averageScore` is the arithmetic mean of
`overall_score` over exactly the questions that have feedback, and is 0 when
no question has feedback. -/
theorem claim1_average_score :
    (∀ (callModel : List TranscriptEntry → String → ModelCall LiveSessionFeedback)
       (st : Store) (sid : String) (s : InterviewSession) (qs : List Question)
       (tr : Option (List TranscriptEntry)),
      st sid = some s → s.mode = .classic → s.questions = some qs →
      ∃ s', finishHandler callModel st sid tr = (.okSession s', st.setDoc sid s') ∧
        s'.status = .completed ∧
        s'.averageScore =
          some (specArithmeticMean (qs.filter fun q => q.feedback.isSome)) ∧
        ((∀ q ∈ qs, q.feedback = none) → s'.averageScore = some 0)) ∧
    (∀ (s : InterviewSession) (qs : List Question),
      s.questions = some qs →
      (handleFinish s).status = .completed ∧
      (handleFinish s).averageScore =
        some (specArithmeticMean (qs.filter fun q => q.feedback.isSome)) ∧
      ((∀ q ∈ qs, q.feedback = none) → (handleFinish s).averageScore = some 0)) := by
  have hempty : ∀ qs : List Question, (∀ q ∈ qs, q.feedback = none) →
      (qs.filter fun q => q.feedback.isSome) = [] := by
    intro qs h
    rw [List.filter_eq_nil_iff]
    intro q hq
    simp [h q hq]
  constructor
  · intro callModel st sid s qs tr hst hmode hq
    refine ⟨applyUpdate
      { status := some .completed, averageScore := some (computeAverageScore qs) } s,
      ?_, ?_, ?_, ?_⟩
    · simp [finishHandler, hst, hmode, hq]
    · simp [applyUpdate]
    · simp [applyUpdate, computeAverageScore_eq_mean]
    · intro hall
      simp [applyUpdate, computeAverageScore_eq_mean, hempty qs hall, specArithmeticMean]
  · intro s qs hq
    refine ⟨rfl, ?_, ?_⟩
    · simp [handleFinish, hq, computeAverageScore_eq_mean]
    · intro hall
      simp [handleFinish, hq, computeAverageScore_eq_mean, hempty qs hall,
        specArithmeticMean]

/-- Witness for C1: finishing the concrete freshly created (fully
unanswered) classic session `s0c` yields average score 0, on the backend
route and the guest path alike. -/
theorem claim1_witness :
    (∃ s', finishHandler callModelEx (fun k => if k = "doc1" then some s0c else none)
        "doc1" none = (.okSession s',
          Store.setDoc (fun k => if k = "doc1" then some s0c else none) "doc1" s') ∧
      s'.status = .completed ∧
      s'.averageScore =
        some (specArithmeticMean ([qEx, qEx2].filter fun q => q.feedback.isSome)) ∧
      s'.averageScore = some 0) ∧
    (handleFinish s0c).averageScore = some 0 := by
  constructor
  · obtain ⟨s', h1, h2, h3, h4⟩ :=
      claim1_average_score.1 callModelEx (fun k => if k = "doc1" then some s0c else none)
        "doc1" s0c [qEx, qEx2] none (by rfl) (by rfl) (by rfl)
    exact ⟨s', h1, h2, h3, h4 (by decide)⟩
  · exact (claim1_average_score.2 s0c [qEx, qEx2] (by rfl)).2.2 (by decide)

/-- C7 counterexample: classic session creation attaches whatever question
list the generation model call returned; nothing in the code enforces the
count of 10 (the prompt merely requests it and the response schema carries
no length constraint), so a creation that succeeds with a one-question
generation result yields a session with 1 question, not 10. -/
theorem claim7_counterexample :
    ((createSessionClassic [qEx] "doc2" "u1" "Backend Engineer" "Acme" "JD"
        "HR Screener" "" "t0").questions.getD []).length = 1 ∧
    ¬ ((createSessionClassic [qEx] "doc2" "u1" "Backend Engineer" "Acme" "JD"
        "HR Screener" "" "t0").questions.getD []).length = 10 := by
  constructor <;> decide

/-- C7 amended: every successful classic creation yields a session with
`currentQuestionIndex = 0`, status `in-progress`, and exactly the questions
returned by the generation call — so exactly 10 questions precisely when the
model honoured the prompt's request for 10. -/
theorem claim7_create_classic :
    ∀ (gen : List Question) (docId uid jobTitle company jobDescription persona
       resumeText createdAt : String),
      (createSessionClassic gen docId uid jobTitle company jobDescription persona
          resumeText createdAt).currentQuestionIndex = 0 ∧
      (createSessionClassic gen docId uid jobTitle company jobDescription persona
          resumeText createdAt).status = .inProgress ∧
      (createSessionClassic gen docId uid jobTitle company jobDescription persona
          resumeText createdAt).questions = some gen ∧
      (gen.length = 10 →
        ((createSessionClassic gen docId uid jobTitle company jobDescription persona
            resumeText createdAt).questions.getD []).length = 10) := by
  intro gen docId uid jobTitle company jobDescription persona resumeText createdAt
  refine ⟨rfl, rfl, rfl, ?_⟩
  intro h
  simpa [createSessionClassic] using h

/-- Witness for C7 amended at a concrete ten-question generation result. -/
theorem claim7_witness :
    ((createSessionClassic (List.replicate 10 qEx) "doc3" "u1" "Backend Engineer"
        "Acme" "JD" "HR Screener" "" "t0").questions.getD []).length = 10 :=
  (claim7_create_classic (List.replicate 10 qEx) "doc3" "u1" "Backend Engineer"
    "Acme" "JD" "HR Screener" "" "t0").2.2.2 (by decide)

/-- C8 counterexample: a request to the answer route for a stored live
session addresses no existing question (the session has no `questions`
array), yet the route does not answer 400 `Question not found at that
index`: the JavaScript index access on `undefined` throws and the catch
block answers 500. -/
theorem claim8_counterexample :
    (answerHandler evalOracleEx storeEx "live1"
        { questionIndex := some 0, answer := "hello" }).1
      = .serverError "Cannot read properties of undefined" ∧
    ¬ (answerHandler evalOracleEx storeEx "live1"
        { questionIndex := some 0, answer := "hello" }).1
      = .badRequest "Question not found at that index." := by
  constructor <;> decide

/-- C8 amended: for a stored session that has a questions array, a
submission whose index addresses no question of that array is answered 400
`Question not found at that index` with the store unchanged — for every
evaluation oracle, hence without invoking the evaluator; for a stored
session without a questions array the route throws and answers 500, also
with the store unchanged. -/
theorem claim8_answer_validation :
    (∀ (evalOracle : String → Category → String → ModelCall Feedback)
       (st : Store) (sid : String) (s : InterviewSession) (qs : List Question)
       (body : AnswerBody),
      st sid = some s → s.questions = some qs →
      (∀ n, body.questionIndex = some n → qs.length ≤ n) →
      answerHandler evalOracle st sid body =
        (.badRequest "Question not found at that index.", st)) ∧
    (∀ (evalOracle : String → Category → String → ModelCall Feedback)
       (st : Store) (sid : String) (s : InterviewSession) (body : AnswerBody),
      st sid = some s → s.questions = none →
      answerHandler evalOracle st sid body =
        (.serverError "Cannot read properties of undefined", st)) := by
  constructor
  · intro evalOracle st sid s qs body hst hq hidx
    match hbody : body.questionIndex with
    | none => simp [answerHandler, hst, hq, hbody]
    | some n =>
      have hn : qs.length ≤ n := hidx n hbody
      have hnone : qs[n]? = none := by
        rw [List.getElem?_eq_none_iff]
        exact hn
      simp [answerHandler, hst, hq, hbody, hnone]
  · intro evalOracle st sid s body hst hq
    simp [answerHandler, hst, hq]

/-- Witness for C8 amended: an out-of-range index on the concrete classic
session `s0c` gets 400 with its store unchanged, and the live session
`sLiveEx` gets the 500. -/
theorem claim8_witness :
    answerHandler evalOracleEx (fun k => if k = "doc1" then some s0c else none)
        "doc1" { questionIndex := some 5, answer := "hello" } =
      (.badRequest "Question not found at that index.",
        fun k => if k = "doc1" then some s0c else none) ∧
    answerHandler evalOracleEx storeEx "live1"
        { questionIndex := some 0, answer := "hello" } =
      (.serverError "Cannot read properties of undefined", storeEx) :=
  ⟨claim8_answer_validation.1 evalOracleEx
      (fun k => if k = "doc1" then some s0c else none) "doc1" s0c [qEx, qEx2]
      { questionIndex := some 5, answer := "hello" } (by rfl) (by rfl)
      (by intro n h; cases h; decide),
   claim8_answer_validation.2 evalOracleEx storeEx "live1" sLiveEx
      { questionIndex := some 0, answer := "hello" } (by rfl) (by rfl)⟩

theorem appendChunk_cons_of_ne_nil (sp : Speaker) (t : String)
    (e : TranscriptEntry) (rest : List TranscriptEntry) (h : rest ≠ []) :
    appendChunk sp t (e :: rest) = e :: appendChunk sp t rest := by
  cases rest with
  | nil => exact absurd rfl h
  | cons e2 rest2 => rfl

theorem appendChunk_cons_head (sp : Speaker) (t : String)
    (e : TranscriptEntry) (rest : List TranscriptEntry) :
    ∃ txt tl, appendChunk sp t (e :: rest) =
      TranscriptEntry.mk e.speaker txt :: tl := by
  cases rest with
  | nil =>
    by_cases hsp : e.speaker = sp
    · exact ⟨e.text ++ t, [], by simp [appendChunk, hsp]⟩
    · cases ht : isBlank t
      · exact ⟨e.text, [⟨sp, t⟩], by simp [appendChunk, hsp, ht]⟩
      · exact ⟨e.text, [], by simp [appendChunk, hsp, ht]⟩
  | cons e2 rest2 => exact ⟨e.text, appendChunk sp t (e2 :: rest2), rfl⟩

theorem speakersAlternate_appendChunk (sp : Speaker) (t : String) :
    ∀ tr : List TranscriptEntry, speakersAlternate tr = true →
      speakersAlternate (appendChunk sp t tr) = true := by
  intro tr
  induction tr with
  | nil =>
    intro _
    cases ht : isBlank t <;> simp [appendChunk, ht, speakersAlternate]
  | cons e rest ih =>
    intro halt
    cases rest with
    | nil =>
      by_cases hsp : e.speaker = sp
      · simp [appendChunk, hsp, speakersAlternate]
      · cases ht : isBlank t
        · simp [appendChunk, hsp, ht, speakersAlternate]
        · simp [appendChunk, hsp, ht, speakersAlternate]
    | cons e2 rest2 =>
      have halt2 : speakersAlternate (e2 :: rest2) = true := by
        have : speakersAlternate (e :: e2 :: rest2)
            = (decide (e.speaker ≠ e2.speaker) && speakersAlternate (e2 :: rest2)) := rfl
        rw [this] at halt
        exact (Bool.and_eq_true_iff.mp halt).2
      have hne : e.speaker ≠ e2.speaker := by
        have : speakersAlternate (e :: e2 :: rest2)
            = (decide (e.speaker ≠ e2.speaker) && speakersAlternate (e2 :: rest2)) := rfl
        rw [this] at halt
        exact of_decide_eq_true (Bool.and_eq_true_iff.mp halt).1
      obtain ⟨txt, tl, heq⟩ := appendChunk_cons_head sp t e2 rest2
      have hres := ih halt2
      rw [appendChunk_cons_of_ne_nil sp t e (e2 :: rest2) (by simp), heq]
      rw [heq] at hres
      simpa [speakersAlternate, hne] using hres

/-- C4: a chunk whose speaker matches the last transcript entry is
concatenated onto that entry (the transcript keeps its length), a chunk from
the other speaker with non-blank text is pushed as a new entry, and every
transcript accumulated from the empty initial transcript has no two
consecutive entries with the same speaker. -/
theorem claim4_transcript_accumulation :
    (∀ (init : List TranscriptEntry) (lastEntry : TranscriptEntry)
       (sp : Speaker) (text : String),
      lastEntry.speaker = sp →
      appendChunk sp text (init ++ [lastEntry]) =
        init ++ [TranscriptEntry.mk sp (lastEntry.text ++ text)] ∧
      (appendChunk sp text (init ++ [lastEntry])).length =
        (init ++ [lastEntry]).length) ∧
    (∀ (init : List TranscriptEntry) (lastEntry : TranscriptEntry)
       (sp : Speaker) (text : String),
      lastEntry.speaker ≠ sp → isBlank text = false →
      appendChunk sp text (init ++ [lastEntry]) =
        (init ++ [lastEntry]) ++ [TranscriptEntry.mk sp text]) ∧
    (∀ chunks : List (Speaker × String),
      speakersAlternate (accumulateTranscript chunks) = true) := by
  refine ⟨?_, ?_, ?_⟩
  · intro init lastEntry sp text hsp
    have key : appendChunk sp text (init ++ [lastEntry]) =
        init ++ [TranscriptEntry.mk sp (lastEntry.text ++ text)] := by
      induction init with
      | nil =>
        cases lastEntry
        cases hsp
        simp [appendChunk]
      | cons e init2 ih =>
        rw [List.cons_append,
          appendChunk_cons_of_ne_nil sp text e (init2 ++ [lastEntry]) (by simp),
          ih, List.cons_append]
    exact ⟨key, by simp [key]⟩
  · intro init lastEntry sp text hsp ht
    induction init with
    | nil =>
      simp [appendChunk, hsp, ht]
    | cons e init2 ih =>
      rw [List.cons_append,
        appendChunk_cons_of_ne_nil sp text e (init2 ++ [lastEntry]) (by simp), ih]
      simp
  · intro chunks
    have aux : ∀ (cs : List (Speaker × String)) (tr : List TranscriptEntry),
        speakersAlternate tr = true →
        speakersAlternate (cs.foldl (fun t c => appendChunk c.1 c.2 t) tr) = true := by
      intro cs
      induction cs with
      | nil => intro tr h; exact h
      | cons c cs2 ih =>
        intro tr h
        exact ih _ (speakersAlternate_appendChunk c.1 c.2 tr h)
    exact aux chunks [] rfl

/-- Witness for C4: concatenating a same-speaker continuation onto a
one-entry transcript, pushing a speaker change, and alternation of a
concrete accumulated transcript. -/
theorem claim4_witness :
    appendChunk .ai " there" [TranscriptEntry.mk .ai "Hi"] =
      [TranscriptEntry.mk .ai "Hi there"] ∧
    appendChunk .user "Yes" [TranscriptEntry.mk .ai "Hi"] =
      [TranscriptEntry.mk .ai "Hi", TranscriptEntry.mk .user "Yes"] ∧
    speakersAlternate
      (accumulateTranscript [(.ai, "Hi"), (.ai, " there"), (.user, "Yes")]) = true := by
  refine ⟨?_, ?_, ?_⟩
  · exact ((claim4_transcript_accumulation.1 [] (TranscriptEntry.mk .ai "Hi")
      .ai " there" rfl).1)
  · exact (claim4_transcript_accumulation.2.1 [] (TranscriptEntry.mk .ai "Hi")
      .user "Yes" (by decide) (by decide))
  · exact claim4_transcript_accumulation.2.2 [(.ai, "Hi"), (.ai, " there"), (.user, "Yes")]

theorem questionCount_navigateQuestion (s : InterviewSession) (j : Nat) :
    questionCount (navigateQuestion s j) = questionCount s := rfl

theorem questionCount_handleFinish (s : InterviewSession) :
    questionCount (handleFinish s) = questionCount s := rfl

theorem handleNext_inBounds (s : InterviewSession) (hs : InBounds s) :
    InBounds (handleNext s) := by
  unfold InBounds at hs ⊢
  simp only [handleNext]
  by_cases h : s.currentQuestionIndex + 1 < questionCount s
  · rw [if_pos h]
    exact h
  · rw [if_neg h]
    exact hs

theorem handlePrev_inBounds (s : InterviewSession) (hs : InBounds s) :
    InBounds (handlePrev s) := by
  unfold InBounds at hs ⊢
  simp only [handlePrev]
  by_cases h : s.currentQuestionIndex ≥ 1
  · rw [if_pos h]
    show s.currentQuestionIndex - 1 < questionCount s
    omega
  · rw [if_neg h]
    exact hs

theorem handleFinish_inBounds (s : InterviewSession) (hs : InBounds s) :
    InBounds (handleFinish s) :=
  hs

theorem handleSubmitAnswer_inBounds (fb : Feedback) (answer : String)
    (s : InterviewSession) (hs : InBounds s) :
    InBounds (handleSubmitAnswer fb answer s) := by
  unfold handleSubmitAnswer
  cases hb : isBlank answer with
  | true => simpa [hb] using hs
  | false =>
    simp only [hb, Bool.false_eq_true, if_false]
    cases hq : s.questions with
    | none => dsimp only; exact hs
    | some qs =>
      dsimp only
      have hc : questionCount s = qs.length := by
        unfold questionCount; rw [hq]; rfl
      have hs' : s.currentQuestionIndex < qs.length := by
        unfold InBounds at hs; omega
      cases hget : qs[s.currentQuestionIndex]? with
      | none => dsimp only; exact hs
      | some q =>
        dsimp only
        by_cases hlt : s.currentQuestionIndex < questionCount s - 1
        · rw [if_pos hlt]
          unfold InBounds navigateQuestion questionCount
          simp only [Option.getD_some, List.length_set]
          omega
        · rw [if_neg hlt]
          unfold InBounds handleFinish questionCount
          simp only [Option.getD_some, List.length_set]
          exact hs'

theorem clientStep_inBounds (op : ClientOp) (s : InterviewSession)
    (hs : InBounds s) : InBounds (clientStep op s) := by
  cases op with
  | next => exact handleNext_inBounds s hs
  | prev => exact handlePrev_inBounds s hs
  | submit fb answer => exact handleSubmitAnswer_inBounds fb answer s hs
  | finish => exact handleFinish_inBounds s hs

/-- C2 counterexample: after the successful submission of an answer to
question 0 of the two-question session `s0c` the index stands at 1; the Prev
control then moves `currentQuestionIndex` backward to 0, so the index does
not only advance. -/
theorem claim2_counterexample :
    s1c.currentQuestionIndex = 1 ∧
    (handlePrev s1c).currentQuestionIndex = 0 := by
  constructor <;> decide

/-- C2 amended: over every interaction sequence of the classic practice
page, `currentQuestionIndex` stays within `[0, questions.length)` (it is in
bounds at creation whenever at least one question was generated, and every
interaction preserves being in bounds); each successful answer submission
increases it by exactly 1 until the final question, at which it stays put
and the session completes.  The index can, however, also move backward by 1
through the Prev control (see the counterexample). -/
theorem claim2_index_lifecycle :
    (∀ (s : InterviewSession) (ops : List ClientOp),
      InBounds s → InBounds (runClient ops s)) ∧
    (∀ (gen : List Question) (docId uid jobTitle company jobDescription persona
       resumeText createdAt : String),
      gen ≠ [] →
      InBounds (createSessionClassic gen docId uid jobTitle company jobDescription
        persona resumeText createdAt)) ∧
    (∀ (s : InterviewSession) (fb : Feedback) (answer : String),
      isBlank answer = false →
      s.currentQuestionIndex + 1 < questionCount s →
      (handleSubmitAnswer fb answer s).currentQuestionIndex =
        s.currentQuestionIndex + 1) ∧
    (∀ (s : InterviewSession) (fb : Feedback) (answer : String),
      isBlank answer = false → InBounds s →
      s.currentQuestionIndex + 1 = questionCount s →
      (handleSubmitAnswer fb answer s).currentQuestionIndex =
        s.currentQuestionIndex ∧
      (handleSubmitAnswer fb answer s).status = .completed) := by
  refine ⟨?_, ?_, ?_, ?_⟩
  · intro s ops hs
    induction ops generalizing s with
    | nil => exact hs
    | cons op rest ih =>
      exact ih (clientStep op s) (clientStep_inBounds op s hs)
  · intro gen docId uid jobTitle company jobDescription persona resumeText createdAt hgen
    unfold InBounds questionCount createSessionClassic
    simp only [Option.getD_some]
    exact List.length_pos.mpr hgen
  · intro s fb answer hb hlt
    cases hq : s.questions with
    | none =>
      unfold questionCount at hlt
      rw [hq] at hlt
      simp at hlt
    | some qs =>
      have hcount : questionCount s = qs.length := by
        unfold questionCount; rw [hq]; rfl
      rw [hcount] at hlt
      have hlt2 : s.currentQuestionIndex < qs.length := by omega
      have hget : qs[s.currentQuestionIndex]? = some (qs[s.currentQuestionIndex]) :=
        List.getElem?_eq_getElem hlt2
      unfold handleSubmitAnswer
      rw [hb]
      simp only [Bool.false_eq_true, if_false, hq, hget]
      have hbranch : s.currentQuestionIndex < questionCount s - 1 := by
        rw [hcount]; omega
      rw [if_pos hbranch]
      rfl
  · intro s fb answer hb hsin heq
    cases hq : s.questions with
    | none =>
      unfold InBounds questionCount at hsin
      rw [hq] at hsin
      simp at hsin
    | some qs =>
      have hcount : questionCount s = qs.length := by
        unfold questionCount; rw [hq]; rfl
      have hlt : s.currentQuestionIndex < qs.length := by
        unfold InBounds at hsin; omega
      have hget : qs[s.currentQuestionIndex]? = some (qs[s.currentQuestionIndex]) :=
        List.getElem?_eq_getElem hlt
      unfold handleSubmitAnswer
      rw [hb]
      simp only [Bool.false_eq_true, if_false, hq, hget]
      have hbranch : ¬ s.currentQuestionIndex < questionCount s - 1 := by
        rw [hcount]; omega
      rw [if_neg hbranch]
      exact ⟨rfl, rfl⟩

/-- Witness for C2 amended: the concrete two-question session `s0c` stays in
bounds over a next-prev-submit interaction run, is in bounds at creation,
advances to index 1 on the first successful submission, and completes on the
final one. -/
theorem claim2_witness :
    InBounds (runClient [.next, .prev, .submit fbEx "I led the migration."] s0c) ∧
    InBounds s0c ∧
    (handleSubmitAnswer fbEx "I led the migration." s0c).currentQuestionIndex = 1 ∧
    (handleSubmitAnswer fbEx "Teamwork." s1c).status = .completed := by
  refine ⟨?_, ?_, ?_, ?_⟩
  · exact claim2_index_lifecycle.1 s0c [.next, .prev, .submit fbEx "I led the migration."]
      (by unfold InBounds; decide)
  · exact claim2_index_lifecycle.2.1 [qEx, qEx2] "doc1" "u1" "Backend Engineer" "Acme"
      "JD" "HR Screener" "" "t0" (by decide)
  · exact claim2_index_lifecycle.2.2.1 s0c fbEx "I led the migration." (by decide)
      (by decide)
  · exact (claim2_index_lifecycle.2.2.2 s1c fbEx "Teamwork." (by decide)
      (by unfold InBounds; decide) (by decide)).2

theorem stepBackend_update_eq
    (ev : String → Category → String → ModelCall Feedback)
    (cm : List TranscriptEntry → String → ModelCall LiveSessionFeedback)
    (d : UpdateData) (s : InterviewSession) :
    stepBackend ev cm (.update d) s = applyUpdate d s := by
  simp [stepBackend, updateHandler, Store.setDoc]

theorem stepBackend_answer_fields
    (ev : String → Category → String → ModelCall Feedback)
    (cm : List TranscriptEntry → String → ModelCall LiveSessionFeedback)
    (body : AnswerBody) (s : InterviewSession) :
    (stepBackend ev cm (.answer body) s).status = s.status ∧
    (stepBackend ev cm (.answer body) s).averageScore = s.averageScore ∧
    (stepBackend ev cm (.answer body) s).liveSessionFeedback = s.liveSessionFeedback := by
  obtain ⟨sid, uid, jt, co, jd, ca, st0, mo, pe, rt, qo, ci, av, trx, lsf⟩ := s
  obtain ⟨qidx, ans⟩ := body
  cases qo with
  | none => simp [stepBackend, answerHandler]
  | some qs =>
    cases qidx with
    | none => simp [stepBackend, answerHandler]
    | some n =>
      cases hget : qs[n]? with
      | none => simp [stepBackend, answerHandler, hget]
      | some q =>
        cases hev : ev q.question q.category ans with
        | error e => simp [stepBackend, answerHandler, hget, hev]
        | ok fb => simp [stepBackend, answerHandler, hget, hev, Store.setDoc, applyUpdate]

theorem stepBackend_finish_classic
    (ev : String → Category → String → ModelCall Feedback)
    (cm : List TranscriptEntry → String → ModelCall LiveSessionFeedback)
    (tr : Option (List TranscriptEntry)) (s : InterviewSession) (qs : List Question)
    (hmode : s.mode = .classic) (hq : s.questions = some qs) :
    stepBackend ev cm (.finish tr) s =
      applyUpdate
        { status := some .completed, averageScore := some (computeAverageScore qs) } s := by
  obtain ⟨sid, uid, jt, co, jd, ca, st0, mo, pe, rt, qo, ci, av, trx, lsf⟩ := s
  dsimp only at hmode hq
  subst hmode
  subst hq
  simp [stepBackend, finishHandler, Store.setDoc]

theorem stepBackend_finish_status
    (ev : String → Category → String → ModelCall Feedback)
    (cm : List TranscriptEntry → String → ModelCall LiveSessionFeedback)
    (tr : Option (List TranscriptEntry)) (s : InterviewSession) :
    (stepBackend ev cm (.finish tr) s).status = .completed ∨
    stepBackend ev cm (.finish tr) s = s := by
  obtain ⟨sid, uid, jt, co, jd, ca, st0, mo, pe, rt, qo, ci, av, trx, lsf⟩ := s
  cases mo with
  | classic =>
    cases qo with
    | none => right; simp [stepBackend, finishHandler]
    | some qs => left; simp [stepBackend, finishHandler, Store.setDoc, applyUpdate]
  | live =>
    cases hrev : generateLiveSessionReview cm tr jt with
    | error e => right; simp [stepBackend, finishHandler, hrev]
    | ok fb => left; simp [stepBackend, finishHandler, hrev, Store.setDoc, applyUpdate]

theorem stepBackend_finish_live
    (ev : String → Category → String → ModelCall Feedback)
    (cm : List TranscriptEntry → String → ModelCall LiveSessionFeedback)
    (tr : Option (List TranscriptEntry)) (s : InterviewSession)
    (fb : LiveSessionFeedback)
    (hmode : s.mode = .live)
    (hrev : generateLiveSessionReview cm tr s.jobTitle = .ok fb) :
    stepBackend ev cm (.finish tr) s =
      applyUpdate
        { status := some .completed, liveSessionFeedback := some fb
          transcript := some (tr.getD []) } s := by
  obtain ⟨sid, uid, jt, co, jd, ca, st0, mo, pe, rt, qo, ci, av, trx, lsf⟩ := s
  dsimp only at hmode hrev
  subst hmode
  simp [stepBackend, finishHandler, hrev, Store.setDoc]

theorem stepBackend_rank_mono
    (ev : String → Category → String → ModelCall Feedback)
    (cm : List TranscriptEntry → String → ModelCall LiveSessionFeedback)
    (op : BackendOp) (s : InterviewSession) (hr : RestrictedOp op) :
    statusRank s.status ≤ statusRank (stepBackend ev cm op s).status := by
  cases op with
  | update d =>
    rw [stepBackend_update_eq]
    obtain ⟨h1, _, _⟩ := hr
    simp [applyUpdate, h1]
  | answer body =>
    rw [(stepBackend_answer_fields ev cm body s).1]
  | finish tr =>
    rcases stepBackend_finish_status ev cm tr s with h | h
    · rw [h]
      cases s.status <;> simp [statusRank]
    · rw [h]

theorem stepBackend_completed_absorbing
    (ev : String → Category → String → ModelCall Feedback)
    (cm : List TranscriptEntry → String → ModelCall LiveSessionFeedback)
    (op : BackendOp) (s : InterviewSession) (hr : RestrictedOp op)
    (hc : s.status = .completed) :
    (stepBackend ev cm op s).status = .completed := by
  have h := stepBackend_rank_mono ev cm op s hr
  rw [hc] at h
  cases hres : (stepBackend ev cm op s).status
  · rw [hres] at h
    simp [statusRank] at h
  · rfl

theorem stepBackend_clean
    (ev : String → Category → String → ModelCall Feedback)
    (cm : List TranscriptEntry → String → ModelCall LiveSessionFeedback)
    (op : BackendOp) (s : InterviewSession) (hr : RestrictedOp op)
    (hc : Clean s) : Clean (stepBackend ev cm op s) := by
  cases op with
  | update d =>
    rw [stepBackend_update_eq]
    obtain ⟨h1, h2, h3⟩ := hr
    intro hst
    simp only [applyUpdate, h1, h2, h3, Option.getD] at hst ⊢
    exact hc hst
  | answer body =>
    obtain ⟨h1, h2, h3⟩ := stepBackend_answer_fields ev cm body s
    intro hst
    rw [h1] at hst
    rw [h2, h3]
    exact hc hst
  | finish tr =>
    rcases stepBackend_finish_status ev cm tr s with h | h
    · intro hst
      rw [h] at hst
      cases hst
    · rw [h]
      exact hc

/-- C3 counterexample: the update route merges an arbitrary client body, so
updating the concrete completed session `sDoneEx` with `\x7b status:
in-progress \x7d` moves its status from `completed` back to `in-progress` —
the reverse transition the claim rules out. -/
theorem claim3_counterexample :
    sDoneEx.status = .completed ∧
    (stepBackend evalOracleEx callModelEx
        (.update { status := some .inProgress }) sDoneEx).status = .inProgress := by
  constructor <;> decide

/-- C3 amended: over every sequence of backend operations on a stored
session in which each update body leaves `status`, `averageScore` and
`liveSessionFeedback` unwritten (as the client's own navigation updates do),
the status rank never decreases and `completed` is absorbing — so the status
transitions only `in-progress → completed` and at most once; sessions
created by either creation route carry neither completion field while
in-progress and such operation sequences preserve that; and at the finish
transition a classic session gains `averageScore` while its
`liveSessionFeedback` stays `none`, a live session gains
`liveSessionFeedback` while its `averageScore` stays `none` — never both. -/
theorem claim3_status_lifecycle :
    (∀ (ev : String → Category → String → ModelCall Feedback)
       (cm : List TranscriptEntry → String → ModelCall LiveSessionFeedback)
       (ops : List BackendOp) (s : InterviewSession),
      (∀ op ∈ ops, RestrictedOp op) →
      statusRank s.status ≤ statusRank (runBackend ev cm ops s).status) ∧
    (∀ (ev : String → Category → String → ModelCall Feedback)
       (cm : List TranscriptEntry → String → ModelCall LiveSessionFeedback)
       (ops : List BackendOp) (s : InterviewSession),
      (∀ op ∈ ops, RestrictedOp op) → s.status = .completed →
      (runBackend ev cm ops s).status = .completed) ∧
    (∀ (ev : String → Category → String → ModelCall Feedback)
       (cm : List TranscriptEntry → String → ModelCall LiveSessionFeedback)
       (ops : List BackendOp) (s : InterviewSession),
      (∀ op ∈ ops, RestrictedOp op) → Clean s →
      Clean (runBackend ev cm ops s)) ∧
    (∀ (gen : List Question) (docId uid jobTitle company jobDescription persona
       resumeText createdAt : String),
      Clean (createSessionClassic gen docId uid jobTitle company jobDescription
        persona resumeText createdAt) ∧
      Clean (createSessionLive docId uid jobTitle company jobDescription
        persona resumeText createdAt)) ∧
    (∀ (ev : String → Category → String → ModelCall Feedback)
       (cm : List TranscriptEntry → String → ModelCall LiveSessionFeedback)
       (tr : Option (List TranscriptEntry)) (s : InterviewSession)
       (qs : List Question),
      s.status = .inProgress → s.mode = .classic → s.questions = some qs →
      s.liveSessionFeedback = none →
      (stepBackend ev cm (.finish tr) s).status = .completed ∧
      (stepBackend ev cm (.finish tr) s).averageScore =
        some (computeAverageScore qs) ∧
      (stepBackend ev cm (.finish tr) s).liveSessionFeedback = none) ∧
    (∀ (ev : String → Category → String → ModelCall Feedback)
       (cm : List TranscriptEntry → String → ModelCall LiveSessionFeedback)
       (tr : Option (List TranscriptEntry)) (s : InterviewSession)
       (fb : LiveSessionFeedback),
      s.status = .inProgress → s.mode = .live → s.averageScore = none →
      generateLiveSessionReview cm tr s.jobTitle = .ok fb →
      (stepBackend ev cm (.finish tr) s).status = .completed ∧
      (stepBackend ev cm (.finish tr) s).liveSessionFeedback = some fb ∧
      (stepBackend ev cm (.finish tr) s).averageScore = none) := by
  refine ⟨?_, ?_, ?_, ?_, ?_, ?_⟩
  · intro ev cm ops
    induction ops with
    | nil => intro s _; exact Nat.le_refl _
    | cons op rest ih =>
      intro s hall
      calc statusRank s.status
          ≤ statusRank (stepBackend ev cm op s).status :=
            stepBackend_rank_mono ev cm op s (hall op (by simp))
        _ ≤ statusRank (runBackend ev cm rest (stepBackend ev cm op s)).status :=
            ih (stepBackend ev cm op s) (fun o ho => hall o (by simp [ho]))
  · intro ev cm ops
    induction ops with
    | nil => intro s _ hc; exact hc
    | cons op rest ih =>
      intro s hall hc
      exact ih (stepBackend ev cm op s) (fun o ho => hall o (by simp [ho]))
        (stepBackend_completed_absorbing ev cm op s (hall op (by simp)) hc)
  · intro ev cm ops
    induction ops with
    | nil => intro s _ hc; exact hc
    | cons op rest ih =>
      intro s hall hc
      exact ih (stepBackend ev cm op s) (fun o ho => hall o (by simp [ho]))
        (stepBackend_clean ev cm op s (hall op (by simp)) hc)
  · intro gen docId uid jobTitle company jobDescription persona resumeText createdAt
    exact ⟨fun _ => ⟨rfl, rfl⟩, fun _ => ⟨rfl, rfl⟩⟩
  · intro ev cm tr s qs hst hmode hq hlsf
    rw [stepBackend_finish_classic ev cm tr s qs hmode hq]
    exact ⟨rfl, rfl, by simp [applyUpdate, hlsf]⟩
  · intro ev cm tr s fb hst hmode havg hrev
    rw [stepBackend_finish_live ev cm tr s fb hmode hrev]
    exact ⟨rfl, rfl, by simp [applyUpdate, havg]⟩

/-- Witness for C3 amended: a concrete restricted navigation update on the
in-progress session `s0c`, absorption on the completed session `sDoneEx`,
cleanliness at creation, and the two finish transitions at concrete
sessions and oracles. -/
theorem claim3_witness :
    statusRank s0c.status ≤
      statusRank (runBackend evalOracleEx callModelEx
        [.update { currentQuestionIndex := some 1 }] s0c).status ∧
    (runBackend evalOracleEx callModelEx
        [.update { currentQuestionIndex := some 1 }] sDoneEx).status = .completed ∧
    Clean (runBackend evalOracleEx callModelEx
        [.update { currentQuestionIndex := some 1 }] s0c) ∧
    Clean s0c ∧
    (stepBackend evalOracleEx callModelEx (.finish none) s0c).averageScore =
      some (computeAverageScore [qEx, qEx2]) ∧
    (stepBackend evalOracleEx callModelEx (.finish none) s0c).liveSessionFeedback
      = none ∧
    (stepBackend evalOracleEx callModelEx
        (.finish (some [⟨.user, "hi"⟩])) sLiveEx).liveSessionFeedback
      = some reviewEx ∧
    (stepBackend evalOracleEx callModelEx
        (.finish (some [⟨.user, "hi"⟩])) sLiveEx).averageScore = none := by
  have hone : ∀ op ∈ ([.update { currentQuestionIndex := some 1 }] : List BackendOp),
      RestrictedOp op := by
    intro op hop
    simp only [List.mem_singleton] at hop
    subst hop
    exact ⟨rfl, rfl, rfl⟩
  refine ⟨?_, ?_, ?_, ?_, ?_, ?_, ?_, ?_⟩
  · exact claim3_status_lifecycle.1 evalOracleEx callModelEx _ s0c hone
  · exact claim3_status_lifecycle.2.1 evalOracleEx callModelEx _ sDoneEx hone rfl
  · exact claim3_status_lifecycle.2.2.1 evalOracleEx callModelEx _ s0c hone
      (fun _ => ⟨rfl, rfl⟩)
  · exact (claim3_status_lifecycle.2.2.2.1 [qEx, qEx2] "doc1" "u1" "Backend Engineer"
      "Acme" "JD" "HR Screener" "" "t0").1
  · exact (claim3_status_lifecycle.2.2.2.2.1 evalOracleEx callModelEx none s0c
      [qEx, qEx2] rfl rfl rfl rfl).2.1
  · exact (claim3_status_lifecycle.2.2.2.2.1 evalOracleEx callModelEx none s0c
      [qEx, qEx2] rfl rfl rfl rfl).2.2
  · exact (claim3_status_lifecycle.2.2.2.2.2 evalOracleEx callModelEx
      (some [⟨.user, "hi"⟩]) sLiveEx reviewEx rfl rfl rfl rfl).2.1
  · exact (claim3_status_lifecycle.2.2.2.2.2 evalOracleEx callModelEx
      (some [⟨.user, "hi"⟩]) sLiveEx reviewEx rfl rfl rfl rfl).2.2

/-- C9: an import request with no body, a falsy id, or a status other than
`completed` is rejected with 400 `Invalid session data provided for import.`
and the store is returned unchanged; conversely, every accepted import had a
completed session with a non-empty id in its body. -/
theorem claim9_import_validation :
    (∀ (uid : String) (st : Store),
      importHandler uid st none =
        (.badRequest "Invalid session data provided for import.", st)) ∧
    (∀ (uid : String) (st : Store) (sd : InterviewSession),
      sd.id = "" ∨ sd.status ≠ .completed →
      importHandler uid st (some sd) =
        (.badRequest "Invalid session data provided for import.", st)) ∧
    (∀ (uid : String) (st : Store) (body : Option InterviewSession)
       (r : InterviewSession) (st2 : Store),
      importHandler uid st body = (.created r, st2) →
      ∃ sd, body = some sd ∧ sd.status = .completed ∧ sd.id ≠ "") := by
  refine ⟨fun uid st => rfl, ?_, ?_⟩
  · intro uid st sd h
    simp [importHandler, h]
  · intro uid st body r st2 h
    match body with
    | none => simp [importHandler] at h
    | some sd =>
      refine ⟨sd, rfl, ?_⟩
      by_cases hg : sd.id = "" ∨ sd.status ≠ .completed
      · simp [importHandler, hg] at h
      · push_neg at hg
        exact ⟨hg.2, hg.1⟩

/-- Witness for C9: a concrete in-progress guest session is rejected and the
store is untouched. -/
theorem claim9_witness :
    importHandler "u1" storeEx (some sLiveEx) =
      (.badRequest "Invalid session data provided for import.", storeEx) :=
  claim9_import_validation.2.1 "u1" storeEx sLiveEx (by decide)

/-- C10: the guest local-storage wrappers are total and swallow storage
errors: `saveGuestSession` returns its input session for every write
behaviour, `getGuestSession` returns `none` when the key is absent, the read
throws, or the parse throws, and `clearGuestSession` returns the prior
storage when the removal throws. -/
theorem claim10_storage_total :
    (∀ (setItem : WebStorage → String → String → ModelCall WebStorage)
       (stringify : InterviewSession → String) (st : WebStorage)
       (session : InterviewSession),
      (saveGuestSession setItem stringify st session).2 = session) ∧
    (∀ (getItem : WebStorage → String → ModelCall (Option String))
       (parse : String → ModelCall InterviewSession) (st : WebStorage),
      getItem st GUEST_SESSION_KEY = .ok none →
      getGuestSession getItem parse st = none) ∧
    (∀ (getItem : WebStorage → String → ModelCall (Option String))
       (parse : String → ModelCall InterviewSession) (st : WebStorage) (e : String),
      getItem st GUEST_SESSION_KEY = .error e →
      getGuestSession getItem parse st = none) ∧
    (∀ (getItem : WebStorage → String → ModelCall (Option String))
       (parse : String → ModelCall InterviewSession) (st : WebStorage)
       (str e : String),
      getItem st GUEST_SESSION_KEY = .ok (some str) →
      parse str = .error e →
      getGuestSession getItem parse st = none) ∧
    (∀ (removeItem : WebStorage → String → ModelCall WebStorage)
       (st : WebStorage) (e : String),
      removeItem st GUEST_SESSION_KEY = .error e →
      clearGuestSession removeItem st = st) := by
  refine ⟨?_, ?_, ?_, ?_, ?_⟩
  · intro setItem stringify st session
    unfold saveGuestSession
    cases setItem st GUEST_SESSION_KEY (stringify session) <;> rfl
  · intro getItem parse st h
    simp [getGuestSession, h]
  · intro getItem parse st e h
    simp [getGuestSession, h]
  · intro getItem parse st str e hget hparse
    by_cases hs : str = ""
    · simp [getGuestSession, hget, hs]
    · simp [getGuestSession, hget, hs, hparse]
  · intro removeItem st e h
    simp [clearGuestSession, h]

/-- Witness for C10 at concrete storage behaviours: a successful save
returns the session, an absent key, a throwing read, and a failing parse all
yield `none`, and a throwing removal leaves the storage unchanged. -/
theorem claim10_witness :
    (saveGuestSession setItemOkEx stringifyEx emptyStorage sLiveEx).2 = sLiveEx ∧
    getGuestSession getItemNoneEx parseFailEx emptyStorage = none ∧
    getGuestSession getItemFailEx parseFailEx emptyStorage = none ∧
    getGuestSession getItemSomeEx parseFailEx emptyStorage = none ∧
    clearGuestSession removeItemFailEx emptyStorage = emptyStorage :=
  ⟨claim10_storage_total.1 setItemOkEx stringifyEx emptyStorage sLiveEx,
   claim10_storage_total.2.1 getItemNoneEx parseFailEx emptyStorage rfl,
   claim10_storage_total.2.2.1 getItemFailEx parseFailEx emptyStorage "SecurityError" rfl,
   claim10_storage_total.2.2.2.1 getItemSomeEx parseFailEx emptyStorage "json" "SyntaxError" rfl rfl,
   claim10_storage_total.2.2.2.2 removeItemFailEx emptyStorage "QuotaExceededError" rfl⟩

end AIC
